import Mathlib

/-!
Shallow embedding of the NetPulse-Pro monitoring core (TypeScript sources
`src/App.tsx`, `src/unnamed/part_003`, `src/utils/networkUtils.ts`,
`src/types/index.ts`) and verification of the specification claims.

Conventions of the embedding:
* TypeScript `number` RTT / latency values are modelled as `ℚ`
  (the source never relies on float rounding in the claimed properties);
  timestamps (`Date.now()`, integer milliseconds) are modelled as `Nat`.
* JavaScript `Infinity` (the initial `minRtt` of a fresh node) is modelled
  with `WithTop ℚ`; symmetrically `maxRtt` uses `WithBot ℚ` (its initial
  value is `0`, and `Math.max()` of an empty spread would be `-Infinity`).
* Optional TS fields (`endTime?`, `customName?`, `hops?`, `isTracing?`)
  become `Option`.
* `Record<string, PingResult>` (the per-cycle results map) is modelled as a
  finite-map abstraction `String → Option PingResult`.
* The random incident / node ids (`Math.random().toString(36)`) are passed
  in as explicit `String` parameters; no claim depends on their values.
-/

namespace NetPulse

/-- Embeds `ConnectionStatus` from `src/types/index.ts`. -/
inductive ConnectionStatus where
  | alive
  | dead
  | unstable
  | unknown
  deriving DecidableEq

/-- Embeds `Hop` from `src/types/index.ts`. -/
structure Hop where
  number : Nat
  ip : String
  name : String
  avg : ℚ
  min : ℚ
  cur : ℚ
  pl : ℚ
  deriving DecidableEq

/-- Embeds `PingResult` from `src/types/index.ts`. -/
structure PingResult where
  timestamp : Nat
  rtt : ℚ
  status : ConnectionStatus
  deriving DecidableEq

/-- Embeds `DowntimeEvent` from `src/types/index.ts`; `endTime?` is `Option`. -/
structure DowntimeEvent where
  id : String
  startTime : Nat
  endTime : Option Nat
  lostCount : Nat
  deriving DecidableEq

/-- Embeds `IPNode` from `src/types/index.ts`. -/
structure IPNode where
  id : String
  label : String
  ip : String
  hostname : String
  customName : Option String
  isResolving : Bool
  history : List PingResult
  downtimeEvents : List DowntimeEvent
  minRtt : WithTop ℚ
  maxRtt : WithBot ℚ
  avgRtt : ℚ
  curRtt : ℚ
  sent : Nat
  received : Nat
  lost : Nat
  packetLoss : ℚ
  isMonitoring : Bool
  isGraphed : Bool
  hops : Option (List Hop)
  isTracing : Option Bool
  deriving DecidableEq

/-- JavaScript `arr.slice(-k)`: the last `k` elements; `slice(-0)` is
`slice(0)`, i.e. the whole array (used for the history cap in both
`runMonitoringTick` of `src/App.tsx` line 92 and `updateNodeData` of
`src/unnamed/part_003` line 114). -/
def sliceLast (l : List α) (k : Nat) : List α :=
  if k = 0 then l else l.drop (l.length - k)

/-- JavaScript `Math.min(...xs)` over a list of finite numbers; the empty
spread gives `Infinity` (`⊤`). -/
def jsMin (l : List ℚ) : WithTop ℚ :=
  l.foldr (fun (x : ℚ) (m : WithTop ℚ) => min (x : WithTop ℚ) m) ⊤

/-- JavaScript `Math.max(...xs)` over a list of finite numbers; the empty
spread gives `-Infinity` (`⊥`). -/
def jsMax (l : List ℚ) : WithBot ℚ :=
  l.foldr (fun (x : ℚ) (m : WithBot ℚ) => max (x : WithBot ℚ) m) ⊥

/-- JavaScript falsiness of the optional numeric field `endTime`
(`!lastEvent.endTime` in `src/unnamed/part_003` lines 119 and 127):
`undefined` and `0` are falsy. -/
def jsNoEndTime : Option Nat → Bool
  | none => true
  | some t => t == 0

/-- Embeds the fresh-node construction of `handleAddIPs`
(`src/App.tsx` lines 130-148): history/log empty, counters zero,
`minRtt = Infinity`, `maxRtt = 0`, monitoring on. -/
def mkFreshNode (nodeId ipAddr : String) : IPNode :=
  { id := nodeId
    label := ipAddr
    ip := ipAddr
    hostname := "Network Target"
    customName := none
    isResolving := false
    history := []
    downtimeEvents := []
    minRtt := ⊤
    maxRtt := (0 : ℚ)
    avgRtt := 0
    curRtt := 0
    sent := 0
    received := 0
    lost := 0
    packetLoss := 0
    isMonitoring := true
    isGraphed := false
    hops := none
    isTracing := none }

/-- Embeds the fresh-node construction of `handleAddIPs` in the
`src/unnamed/part_003` variant (lines 158-166); it differs from
`mkFreshNode` only in the display fields. -/
def mkFreshNode3 (nodeId ipAddr : String) : IPNode :=
  { mkFreshNode nodeId ipAddr with
    hostname := "Resolving...", isResolving := true }

/-- Embeds the outcome classification shared by both `getPingResult`
variants (`src/App.tsx` line 48, `src/unnamed/part_003` line 87):
`status === 'dead' ? 'dead' : (rtt > warningThreshold ? 'unstable' : 'alive')`. -/
def classifyStatus (warningThreshold : ℚ) (execStatus : ConnectionStatus)
    (rtt : ℚ) : ConnectionStatus :=
  if execStatus = ConnectionStatus.dead then ConnectionStatus.dead
  else if rtt > warningThreshold then ConnectionStatus.unstable
  else ConnectionStatus.alive

/-- Embeds the per-node fold of `runMonitoringTick` (`src/App.tsx`
lines 92-111): append to history capped at `maxDataPoints`, recompute
min/max/avg over non-dead history entries, bump the lifetime counters. -/
def foldResult (cap : Nat) (node : IPNode) (result : PingResult) : IPNode :=
  let newHistory := sliceLast (node.history ++ [result]) cap
  let isDead := result.status = ConnectionStatus.dead
  let aliveHistory := newHistory.filter fun h => h.status ≠ ConnectionStatus.dead
  let minRtt := if aliveHistory.length ≠ 0 then
      jsMin (aliveHistory.map fun h => h.rtt) else node.minRtt
  let maxRtt := if aliveHistory.length ≠ 0 then
      jsMax (aliveHistory.map fun h => h.rtt) else node.maxRtt
  let avgRtt := if aliveHistory.length ≠ 0 then
      (aliveHistory.foldl (fun s h => s + h.rtt) 0) / (aliveHistory.length : ℚ)
    else 0
  { node with
    history := newHistory
    curRtt := if isDead then 0 else result.rtt
    sent := node.sent + 1
    received := node.received + (if isDead then 0 else 1)
    lost := node.lost + (if isDead then 1 else 0)
    packetLoss := (((node.lost : ℚ) + (if isDead then 1 else 0)) / ((node.sent : ℚ) + 1)) * 100
    minRtt := minRtt
    maxRtt := maxRtt
    avgRtt := avgRtt }

/-- Embeds the per-node fold inside `updateNodeData`
(`src/unnamed/part_003` lines 114-145): capped history append, downtime
incident update, then either the dead-result update (lines 118-124) or the
alive-result update (lines 127-145).  `evId` stands for the random id given
to a newly opened incident (line 122).  This variant recomputes `minRtt`
and `avgRtt` but never `maxRtt`, and the dead branch leaves min/max/avg
untouched, exactly as in the source. -/
def updateNodeData (cap : Nat) (evId : String) (n : IPNode)
    (result : PingResult) : IPNode :=
  let newHistory := sliceLast (n.history ++ [result]) cap
  if result.status = ConnectionStatus.dead then
    let newDowntimeEvents :=
      match n.downtimeEvents.getLast? with
      | some lastEvent =>
        if jsNoEndTime lastEvent.endTime then
          n.downtimeEvents.dropLast ++
            [{ lastEvent with lostCount := lastEvent.lostCount + 1 }]
        else
          n.downtimeEvents ++
            [{ id := evId, startTime := result.timestamp,
               endTime := none, lostCount := 1 }]
      | none =>
          n.downtimeEvents ++
            [{ id := evId, startTime := result.timestamp,
               endTime := none, lostCount := 1 }]
    { n with
      history := newHistory
      downtimeEvents := newDowntimeEvents
      curRtt := 0
      sent := n.sent + 1
      lost := n.lost + 1
      packetLoss := (((n.lost : ℚ) + 1) / ((n.sent : ℚ) + 1)) * 100 }
  else
    let newDowntimeEvents :=
      match n.downtimeEvents.getLast? with
      | some lastEvent =>
        if jsNoEndTime lastEvent.endTime then
          n.downtimeEvents.dropLast ++
            [{ lastEvent with endTime := some result.timestamp }]
        else n.downtimeEvents
      | none => n.downtimeEvents
    let aliveResults := newHistory.filter fun h => h.status ≠ ConnectionStatus.dead
    let minRtt := if aliveResults.length > 0 then
        jsMin (aliveResults.map fun h => h.rtt) else n.minRtt
    let avgRtt := if aliveResults.length > 0 then
        (aliveResults.foldl (fun acc curr => acc + curr.rtt) 0) / (aliveResults.length : ℚ)
      else 0
    { n with
      history := newHistory
      downtimeEvents := newDowntimeEvents
      minRtt := minRtt
      avgRtt := avgRtt
      curRtt := result.rtt
      sent := n.sent + 1
      received := n.received + 1
      packetLoss := ((n.lost : ℚ) / ((n.sent : ℚ) + 1)) * 100 }

/-- Embeds the atomic commit of a cycle's results
(`src/App.tsx` lines 88-112): `currentNodes.map(node => ...)` where a node
with no entry in the results map is returned unchanged (line 90). -/
def commitResults (cap : Nat) (nodes : List IPNode)
    (resultsMap : String → Option PingResult) : List IPNode :=
  nodes.map fun node =>
    match resultsMap node.id with
    | none => node
    | some result => foldResult cap node result

/-- State touched by a scheduler tick: the `isUpdatingRef` guard and the
current node registry (`src/App.tsx` lines 29-31). -/
structure SchedulerState where
  isUpdating : Bool
  nodes : List IPNode
  deriving DecidableEq

/-- Embeds the control flow of `runMonitoringTick` (`src/App.tsx`
lines 65-118) as one deterministic step.  `probeOutcome` abstracts the
batched probing (lines 76-85): `Except.ok` carries the collected results
map, `Except.error` stands for the `catch`-handled failure (line 113).
The returned `Bool` records whether a cycle actually started (probes were
issued).  The `finally` block (line 116) clears the guard on both exit
paths. -/
def runMonitoringTick (cap : Nat) (s : SchedulerState)
    (probeOutcome : Except Unit (String → Option PingResult)) :
    SchedulerState × Bool :=
  if s.isUpdating || s.nodes.isEmpty then (s, false)
  else if (s.nodes.filter fun n => n.isMonitoring).isEmpty then (s, false)
  else
    match probeOutcome with
    | Except.ok resultsMap =>
        ({ isUpdating := false, nodes := commitResults cap s.nodes resultsMap }, true)
    | Except.error _ => ({ isUpdating := false, nodes := s.nodes }, true)

/-- Embeds `onToggleMonitoring` (`src/App.tsx` line 199, identical at
`src/unnamed/part_003` line 312): flip `isMonitoring` of the matching id. -/
def toggleMonitoring (nodes : List IPNode) (targetId : String) : List IPNode :=
  nodes.map fun n =>
    if n.id = targetId then { n with isMonitoring := !n.isMonitoring } else n

/-- Embeds `onRemove` (`src/App.tsx` line 200, `src/unnamed/part_003`
line 313): keep every node whose id differs. -/
def removeNode (nodes : List IPNode) (targetId : String) : List IPNode :=
  nodes.filter fun n => n.id ≠ targetId

/-- Embeds `expandRange` (`src/utils/networkUtils.ts` lines 12-37) after
its regex match `^(\d{1,3}.\d{1,3}.\d{1,3}.)(\d{1,3})-(\d{1,3})$` has
decomposed the token `a.b.c.x-y`: reject octets above 255, then emit
`prefix + i` for `i` from `min(x,y)` to `safeMax = min(max(x,y), min(x,y)+100)`. -/
def expandRange (a b c x y : Nat) : List String :=
  if 255 < x ∨ 255 < y then []
  else
    let mn := min x y
    let mx := max x y
    let safeMax := min mx (mn + 100)
    (List.range' mn (safeMax - mn + 1)).map fun i =>
      s!"{a}.{b}.{c}.{i}"

/-- Non-dead entries of a node's history, as filtered by both folds. -/
def aliveEntries (n : IPNode) : List PingResult :=
  n.history.filter fun h => h.status ≠ ConnectionStatus.dead

/-- Number of open (no end time) incidents in a downtime log. -/
def openCount (log : List DowntimeEvent) : Nat :=
  log.countP fun e => e.endTime.isNone

theorem foldResult_counter_step (cap : Nat) (n : IPNode) (r : PingResult)
    (h : n.sent = n.received + n.lost) :
    (foldResult cap n r).sent
      = (foldResult cap n r).received + (foldResult cap n r).lost := by
  by_cases hd : r.status = ConnectionStatus.dead <;>
    simp [foldResult, hd, h] <;> omega

theorem updateNodeData_counter_step (cap : Nat) (evId : String) (n : IPNode)
    (r : PingResult) (h : n.sent = n.received + n.lost) :
    (updateNodeData cap evId n r).sent
      = (updateNodeData cap evId n r).received + (updateNodeData cap evId n r).lost := by
  by_cases hd : r.status = ConnectionStatus.dead <;>
    simp [updateNodeData, hd, h] <;> omega

theorem foldl_foldResult_counter (cap : Nat) (rs : List PingResult) :
    ∀ n : IPNode, n.sent = n.received + n.lost →
      (rs.foldl (foldResult cap) n).sent
        = (rs.foldl (foldResult cap) n).received + (rs.foldl (foldResult cap) n).lost := by
  induction rs with
  | nil => intro n h; exact h
  | cons r rs ih =>
      intro n h
      exact ih (foldResult cap n r) (foldResult_counter_step cap n r h)

theorem foldl_updateNodeData_counter (cap : Nat) (evId : String) (rs : List PingResult) :
    ∀ n : IPNode, n.sent = n.received + n.lost →
      (rs.foldl (updateNodeData cap evId) n).sent
        = (rs.foldl (updateNodeData cap evId) n).received
          + (rs.foldl (updateNodeData cap evId) n).lost := by
  induction rs with
  | nil => intro n h; exact h
  | cons r rs ih =>
      intro n h
      exact ih (updateNodeData cap evId n r) (updateNodeData_counter_step cap evId n r h)

/-- C3: for every sequence of probe results folded into a fresh target
(counters starting at zero), `sent = received + lost` holds after every
single fold — stated for the `runMonitoringTick` fold of `src/App.tsx`
and for the `updateNodeData` fold of `src/unnamed/part_003`; quantifying
over all sequences covers every intermediate fold (instantiate at each
prefix). -/
theorem c3_sent_eq_received_add_lost (cap : Nat) (evId nodeId ipAddr : String)
    (rs : List PingResult) :
    ((rs.foldl (foldResult cap) (mkFreshNode nodeId ipAddr)).sent
      = (rs.foldl (foldResult cap) (mkFreshNode nodeId ipAddr)).received
        + (rs.foldl (foldResult cap) (mkFreshNode nodeId ipAddr)).lost)
    ∧ ((rs.foldl (updateNodeData cap evId) (mkFreshNode3 nodeId ipAddr)).sent
      = (rs.foldl (updateNodeData cap evId) (mkFreshNode3 nodeId ipAddr)).received
        + (rs.foldl (updateNodeData cap evId) (mkFreshNode3 nodeId ipAddr)).lost) :=
  ⟨foldl_foldResult_counter cap rs _ rfl,
   foldl_updateNodeData_counter cap evId rs _ rfl⟩

/-- C5 counterexample: a reachable probe whose RTT equals the warning
threshold is classified `alive` (healthy) by `getPingResult`
(`src/App.tsx` line 48 uses a strict `rtt > warningThreshold` test), not
`unstable` (degraded) as the claim states. -/
theorem c5_equal_threshold_counterexample :
    classifyStatus 150 ConnectionStatus.alive 150 = ConnectionStatus.alive
    ∧ classifyStatus 150 ConnectionStatus.alive 150 ≠ ConnectionStatus.unstable := by
  constructor <;> decide

/-- C5 amended: for a probe the executor reports reachable, the outcome is
`unstable` (degraded) exactly when the RTT is strictly greater than the
warning threshold and `alive` (healthy) exactly when the RTT is less than
or equal to it; in particular an RTT equal to the threshold is healthy. -/
theorem c5_classification_amended (warningThreshold rtt : ℚ)
    (execStatus : ConnectionStatus) (h : execStatus ≠ ConnectionStatus.dead) :
    (classifyStatus warningThreshold execStatus rtt = ConnectionStatus.unstable
      ↔ warningThreshold < rtt)
    ∧ (classifyStatus warningThreshold execStatus rtt = ConnectionStatus.alive
      ↔ rtt ≤ warningThreshold) := by
  rcases lt_or_ge warningThreshold rtt with hgt | hle
  · simp [classifyStatus, h, hgt]
  · have hng : ¬ warningThreshold < rtt := not_lt.mpr hle
    simp [classifyStatus, h, hng, hle]

theorem c5_classification_amended_witness :
    (ConnectionStatus.alive ≠ ConnectionStatus.dead)
    ∧ ((classifyStatus 150 ConnectionStatus.alive 200 = ConnectionStatus.unstable
          ↔ (150 : ℚ) < 200)
       ∧ (classifyStatus 150 ConnectionStatus.alive 200 = ConnectionStatus.alive
          ↔ (200 : ℚ) ≤ 150)) :=
  ⟨by decide, c5_classification_amended 150 200 ConnectionStatus.alive (by decide)⟩

/-- C9: toggling monitoring twice restores the registry exactly (the
toggled target returns to its original active state with every other field
unchanged, other targets untouched), and removing an id absent from the
registry is a total no-op. -/
theorem c9_toggle_involutive_remove_noop (nodes : List IPNode) (tid rid : String) :
    toggleMonitoring (toggleMonitoring nodes tid) tid = nodes
    ∧ (rid ∉ nodes.map (fun n => n.id) → removeNode nodes rid = nodes) := by
  constructor
  · rw [toggleMonitoring, toggleMonitoring, List.map_map]
    have hcomp : ((fun n : IPNode =>
          if n.id = tid then { n with isMonitoring := !n.isMonitoring } else n)
        ∘ (fun n : IPNode =>
          if n.id = tid then { n with isMonitoring := !n.isMonitoring } else n)) = id := by
      funext n
      by_cases h : n.id = tid
      · cases n
        simp_all [Bool.not_not]
      · simp [Function.comp, h]
    rw [hcomp, List.map_id]
  · intro hid
    rw [removeNode, List.filter_eq_self]
    intro n hn
    simp only [ne_eq, decide_not, Bool.not_eq_eq_eq_not, Bool.not_true,
      decide_eq_false_iff_not]
    intro heq
    exact hid (heq ▸ List.mem_map_of_mem (fun n => n.id) hn)

theorem c9_toggle_involutive_remove_noop_witness :
    ("gone" ∉ ([mkFreshNode "n1" "8.8.8.8"].map fun n => n.id))
    ∧ (toggleMonitoring (toggleMonitoring [mkFreshNode "n1" "8.8.8.8"] "n1") "n1"
        = [mkFreshNode "n1" "8.8.8.8"]
      ∧ removeNode [mkFreshNode "n1" "8.8.8.8"] "gone" = [mkFreshNode "n1" "8.8.8.8"]) :=
  ⟨by decide,
   (c9_toggle_involutive_remove_noop [mkFreshNode "n1" "8.8.8.8"] "n1" "gone").1,
   (c9_toggle_involutive_remove_noop [mkFreshNode "n1" "8.8.8.8"] "n1" "gone").2 (by decide)⟩

/-- C6: a tick that finds the in-progress guard set, or no active
(monitoring) targets, performs no probes and leaves the scheduler state
unchanged; and whenever a cycle does start, the guard is false on every
exit path — both on the normal path and on the `catch`/`finally` failure
path, which `probeOutcome` ranges over. -/
theorem c6_tick_skip_and_guard_clear (cap : Nat) (s : SchedulerState)
    (probeOutcome : Except Unit (String → Option PingResult)) :
    ((s.isUpdating = true ∨ s.nodes.filter (fun n => n.isMonitoring) = []) →
        runMonitoringTick cap s probeOutcome = (s, false))
    ∧ (∀ s' : SchedulerState, ∀ started : Bool,
        runMonitoringTick cap s probeOutcome = (s', started) → started = true →
        s'.isUpdating = false) := by
  constructor
  · rintro (hu | hf)
    · simp [runMonitoringTick, hu]
    · by_cases hu : s.isUpdating
      · simp [runMonitoringTick, hu]
      · by_cases hn : s.nodes.isEmpty
        · simp [runMonitoringTick, hu, hn]
        · simp [runMonitoringTick, hu, hn, hf]
  · intro s' started heq hst
    subst hst
    cases probeOutcome with
    | ok resultsMap =>
        unfold runMonitoringTick at heq
        split_ifs at heq with h1 h2
        · simp at heq
        · simp at heq
        · cases heq; rfl
    | error e =>
        unfold runMonitoringTick at heq
        split_ifs at heq with h1 h2
        · simp at heq
        · simp at heq
        · cases heq; rfl

theorem c6_tick_skip_and_guard_clear_witness :
    (({ isUpdating := true, nodes := [mkFreshNode "n1" "8.8.8.8"] } : SchedulerState).isUpdating = true
      ∨ ({ isUpdating := true, nodes := [mkFreshNode "n1" "8.8.8.8"] } : SchedulerState).nodes.filter
          (fun n => n.isMonitoring) = [])
    ∧ runMonitoringTick 5 { isUpdating := true, nodes := [mkFreshNode "n1" "8.8.8.8"] }
        (Except.error ())
        = ({ isUpdating := true, nodes := [mkFreshNode "n1" "8.8.8.8"] }, false)
    ∧ (runMonitoringTick 5 { isUpdating := false, nodes := [mkFreshNode "n1" "8.8.8.8"] }
          (Except.error ())).1.isUpdating = false :=
  ⟨Or.inl rfl,
   (c6_tick_skip_and_guard_clear 5 { isUpdating := true, nodes := [mkFreshNode "n1" "8.8.8.8"] }
      (Except.error ())).1 (Or.inl rfl),
   (c6_tick_skip_and_guard_clear 5 { isUpdating := false, nodes := [mkFreshNode "n1" "8.8.8.8"] }
      (Except.error ())).2 _ _ rfl (by decide)⟩

/-- C8: committing a cycle whose results map carries an entry for an id no
longer present in the registry is a silent no-op for that entry — the
commit with the extra entry equals the commit without it, target ids are
unchanged by a commit, and the removed id does not reappear in the
post-commit snapshot. -/
theorem c8_commit_removed_id_noop (cap : Nat) (nodes : List IPNode)
    (resultsMap : String → Option PingResult) (remId : String) (r : PingResult)
    (h : remId ∉ nodes.map fun n => n.id) :
    commitResults cap nodes (fun k => if k = remId then some r else resultsMap k)
      = commitResults cap nodes resultsMap
    ∧ (commitResults cap nodes resultsMap).map (fun n => n.id)
      = nodes.map (fun n => n.id)
    ∧ remId ∉ (commitResults cap nodes resultsMap).map fun n => n.id := by
  have hid : ∀ n ∈ nodes, n.id ≠ remId := by
    intro n hn heq
    exact h (heq ▸ List.mem_map_of_mem (fun n => n.id) hn)
  have hids : (commitResults cap nodes resultsMap).map (fun n => n.id)
      = nodes.map (fun n => n.id) := by
    rw [commitResults, List.map_map]
    apply List.map_congr_left
    intro n hn
    cases hr : resultsMap n.id <;> simp [hr, foldResult]
  refine ⟨?_, hids, hids ▸ h⟩
  rw [commitResults, commitResults]
  apply List.map_congr_left
  intro n hn
  simp [hid n hn]

theorem c8_commit_removed_id_noop_witness :
    ("gone" ∉ ([mkFreshNode "n1" "8.8.8.8"].map fun n => n.id))
    ∧ (commitResults 5 [mkFreshNode "n1" "8.8.8.8"]
        (fun k => if k = "gone"
          then some { timestamp := 1000, rtt := 50, status := ConnectionStatus.alive }
          else none)
        = commitResults 5 [mkFreshNode "n1" "8.8.8.8"] (fun _ => none)
      ∧ (commitResults 5 [mkFreshNode "n1" "8.8.8.8"] (fun _ => none)).map (fun n => n.id)
        = [mkFreshNode "n1" "8.8.8.8"].map (fun n => n.id)
      ∧ "gone" ∉ (commitResults 5 [mkFreshNode "n1" "8.8.8.8"] (fun _ => none)).map
          fun n => n.id) :=
  ⟨by decide,
   c8_commit_removed_id_noop 5 [mkFreshNode "n1" "8.8.8.8"] (fun _ => none) "gone"
     { timestamp := 1000, rtt := 50, status := ConnectionStatus.alive } (by decide)⟩

/-- C10: folding one probe result changes only history, downtime log,
derived statistics, and counters — the identity, address, label, hostname,
custom name, monitoring flag, trace hops, and trace-in-progress flag are
preserved by both folds, and a commit returns every node that received no
result this cycle identically (positionally). -/
theorem c10_fold_frame (cap : Nat) (evId : String) (n : IPNode) (r : PingResult)
    (nodes : List IPNode) (resultsMap : String → Option PingResult) :
    ((updateNodeData cap evId n r).id = n.id
      ∧ (updateNodeData cap evId n r).ip = n.ip
      ∧ (updateNodeData cap evId n r).label = n.label
      ∧ (updateNodeData cap evId n r).hostname = n.hostname
      ∧ (updateNodeData cap evId n r).customName = n.customName
      ∧ (updateNodeData cap evId n r).isMonitoring = n.isMonitoring
      ∧ (updateNodeData cap evId n r).hops = n.hops
      ∧ (updateNodeData cap evId n r).isTracing = n.isTracing)
    ∧ ((foldResult cap n r).id = n.id
      ∧ (foldResult cap n r).ip = n.ip
      ∧ (foldResult cap n r).label = n.label
      ∧ (foldResult cap n r).hostname = n.hostname
      ∧ (foldResult cap n r).customName = n.customName
      ∧ (foldResult cap n r).isMonitoring = n.isMonitoring
      ∧ (foldResult cap n r).hops = n.hops
      ∧ (foldResult cap n r).isTracing = n.isTracing)
    ∧ List.Forall₂ (fun a b => resultsMap a.id = none → b = a) nodes
        (commitResults cap nodes resultsMap) := by
  refine ⟨?_, ?_, ?_⟩
  · by_cases hd : r.status = ConnectionStatus.dead <;>
      simp [updateNodeData, hd]
  · simp [foldResult]
  · rw [commitResults, List.forall₂_map_right_iff, List.forall₂_same]
    intro a _ hnone
    simp [hnone]

theorem c10_fold_frame_witness :
    (updateNodeData 5 "e" (mkFreshNode "n1" "8.8.8.8")
        { timestamp := 1000, rtt := 50, status := ConnectionStatus.alive }).id
      = (mkFreshNode "n1" "8.8.8.8").id
    ∧ List.Forall₂
        (fun a b => (fun _ : String => (none : Option PingResult)) a.id = none → b = a)
        [mkFreshNode "n1" "8.8.8.8"]
        (commitResults 5 [mkFreshNode "n1" "8.8.8.8"] (fun _ => none)) :=
  ⟨(c10_fold_frame 5 "e" (mkFreshNode "n1" "8.8.8.8")
      { timestamp := 1000, rtt := 50, status := ConnectionStatus.alive }
      [] (fun _ => none)).1.1,
   (c10_fold_frame 5 "e" (mkFreshNode "n1" "8.8.8.8")
      { timestamp := 1000, rtt := 50, status := ConnectionStatus.alive }
      [mkFreshNode "n1" "8.8.8.8"] (fun _ => none)).2.2⟩

theorem sliceLast_eq_drop (l : List α) (k : Nat) (hk : 1 ≤ k) :
    sliceLast l k = l.drop (l.length - k) := by
  rw [sliceLast, if_neg (by omega)]

theorem sliceLast_length_le (l : List α) (k : Nat) (hk : 1 ≤ k) :
    (sliceLast l k).length ≤ k := by
  rw [sliceLast_eq_drop l k hk, List.length_drop]
  omega

theorem sliceLast_eq_self (l : List α) (k : Nat) (h : l.length ≤ k) :
    sliceLast l k = l := by
  rw [sliceLast]
  split
  · rfl
  · have hz : l.length - k = 0 := by omega
    rw [hz, List.drop_zero]

theorem sliceLast_append_left (l rs : List α) (k : Nat) (hk : 1 ≤ k) :
    sliceLast (sliceLast l k ++ rs) k = sliceLast (l ++ rs) k := by
  rw [sliceLast_eq_drop l k hk, sliceLast_eq_drop _ k hk, sliceLast_eq_drop _ k hk]
  rw [← List.drop_append_of_le_length (show l.length - k ≤ l.length by omega)]
  rw [List.drop_drop, List.length_drop, List.length_append]
  congr 1
  omega

theorem foldResult_history (cap : Nat) (n : IPNode) (r : PingResult) :
    (foldResult cap n r).history = sliceLast (n.history ++ [r]) cap := by
  simp [foldResult]

theorem foldl_foldResult_history (cap : Nat) (hk : 1 ≤ cap) (rs : List PingResult) :
    ∀ n : IPNode, n.history.length ≤ cap →
      (rs.foldl (foldResult cap) n).history = sliceLast (n.history ++ rs) cap := by
  induction rs with
  | nil =>
      intro n h
      rw [List.foldl_nil, List.append_nil, sliceLast_eq_self n.history cap h]
  | cons r rs ih =>
      intro n h
      rw [List.foldl_cons,
        ih (foldResult cap n r)
          (by rw [foldResult_history]; exact sliceLast_length_le _ cap hk),
        foldResult_history, sliceLast_append_left _ _ cap hk,
        List.append_assoc, List.singleton_append]

/-- C4: with a configured cap `C ≥ 1`, folding `N` probe results into a
fresh target leaves exactly the most recent `min(N, C)` results in arrival
order (eviction drops from the front), and the history never exceeds the
cap; quantifying over all sequences covers every intermediate point
(instantiate at each prefix). -/
theorem c4_history_bounded (cap : Nat) (nodeId ipAddr : String)
    (rs : List PingResult) (hk : 1 ≤ cap) :
    (rs.foldl (foldResult cap) (mkFreshNode nodeId ipAddr)).history
      = rs.drop (rs.length - cap)
    ∧ (rs.foldl (foldResult cap) (mkFreshNode nodeId ipAddr)).history.length
      = min rs.length cap
    ∧ (rs.foldl (foldResult cap) (mkFreshNode nodeId ipAddr)).history.length ≤ cap := by
  have h := foldl_foldResult_history cap hk rs (mkFreshNode nodeId ipAddr)
      (by simp [mkFreshNode])
  rw [show (mkFreshNode nodeId ipAddr).history = [] from rfl,
    List.nil_append, sliceLast_eq_drop rs cap hk] at h
  refine ⟨h, ?_, ?_⟩
  · rw [h, List.length_drop]
    rcases Nat.le_total rs.length cap with hle | hle
    · rw [min_eq_left hle]; omega
    · rw [min_eq_right hle]; omega
  · rw [h, List.length_drop]
    omega

theorem c4_history_bounded_witness :
    (1 ≤ 2)
    ∧ (([({ timestamp := 1, rtt := 10, status := ConnectionStatus.alive } : PingResult),
         { timestamp := 2, rtt := 20, status := ConnectionStatus.alive },
         { timestamp := 3, rtt := 30, status := ConnectionStatus.alive }].foldl
          (foldResult 2) (mkFreshNode "n1" "8.8.8.8")).history
        = [({ timestamp := 1, rtt := 10, status := ConnectionStatus.alive } : PingResult),
           { timestamp := 2, rtt := 20, status := ConnectionStatus.alive },
           { timestamp := 3, rtt := 30, status := ConnectionStatus.alive }].drop
            ([({ timestamp := 1, rtt := 10, status := ConnectionStatus.alive } : PingResult),
              { timestamp := 2, rtt := 20, status := ConnectionStatus.alive },
              { timestamp := 3, rtt := 30, status := ConnectionStatus.alive }].length - 2)
      ∧ ([({ timestamp := 1, rtt := 10, status := ConnectionStatus.alive } : PingResult),
          { timestamp := 2, rtt := 20, status := ConnectionStatus.alive },
          { timestamp := 3, rtt := 30, status := ConnectionStatus.alive }].foldl
           (foldResult 2) (mkFreshNode "n1" "8.8.8.8")).history.length
        = min
            [({ timestamp := 1, rtt := 10, status := ConnectionStatus.alive } : PingResult),
             { timestamp := 2, rtt := 20, status := ConnectionStatus.alive },
             { timestamp := 3, rtt := 30, status := ConnectionStatus.alive }].length 2
      ∧ ([({ timestamp := 1, rtt := 10, status := ConnectionStatus.alive } : PingResult),
          { timestamp := 2, rtt := 20, status := ConnectionStatus.alive },
          { timestamp := 3, rtt := 30, status := ConnectionStatus.alive }].foldl
           (foldResult 2) (mkFreshNode "n1" "8.8.8.8")).history.length ≤ 2) :=
  ⟨by decide,
   c4_history_bounded 2 "n1" "8.8.8.8"
     [{ timestamp := 1, rtt := 10, status := ConnectionStatus.alive },
      { timestamp := 2, rtt := 20, status := ConnectionStatus.alive },
      { timestamp := 3, rtt := 30, status := ConnectionStatus.alive }] (by decide)⟩

theorem nat_min_add_one (m n : Nat) :
    min (m + 1) (n + 1) = min m n + 1 := by
  rcases Nat.le_total m n with h | h
  · rw [min_eq_left h, min_eq_left (show m + 1 ≤ n + 1 by omega)]
  · rw [min_eq_right h, min_eq_right (show n + 1 ≤ m + 1 by omega)]

theorem take_range'_eq (m : Nat) : ∀ (s n : Nat),
    (List.range' s n).take m = List.range' s (min m n) := by
  induction m with
  | zero => intro s n; simp
  | succ m ih =>
      intro s n
      cases n with
      | zero => simp
      | succ n =>
          rw [List.range'_succ, List.take_succ_cons, ih (s + 1) n,
            nat_min_add_one, List.range'_succ]

theorem safeMax_count (x y : Nat) :
    min (max x y) (min x y + 100) - min x y + 1
      = min 101 (max x y - min x y + 1) := by
  rcases Nat.le_total x y with h | h
  · rw [max_eq_right h, min_eq_left h]
    by_cases h2 : y ≤ x + 100
    · rw [min_eq_left h2, min_eq_right (show y - x + 1 ≤ 101 by omega)]
    · rw [min_eq_right (show x + 100 ≤ y by omega),
        min_eq_left (show 101 ≤ y - x + 1 by omega)]
      omega
  · rw [max_eq_left h, min_eq_right h]
    by_cases h2 : x ≤ y + 100
    · rw [min_eq_left h2, min_eq_right (show x - y + 1 ≤ 101 by omega)]
    · rw [min_eq_right (show y + 100 ≤ x by omega),
        min_eq_left (show 101 ≤ x - y + 1 by omega)]
      omega

/-- C7 counterexample: the token `10.0.0.0-255` (octets 0 and 255, both at
most 255) expands to 101 addresses — `safeMax = min(255, 0 + 100) = 100`
yields last octets 0..100 inclusive — refuting "at most 100 entries". -/
theorem c7_range_cap_counterexample :
    ¬ (expandRange 10 0 0 0 255).length ≤ 100 := by
  decide

/-- C7 amended: for a token `a.b.c.x-y` with `x, y ≤ 255`, range expansion
returns the inclusive ascending list `a.b.c.min(x,y)` through
`a.b.c.max(x,y)` truncated (from the end) to at most 101 entries — the
last octet is capped at `min(x,y) + 100`, so the list length is
`min(max(x,y) - min(x,y) + 1, 101)`. -/
theorem c7_expand_range_amended (a b c x y : Nat) (hx : x ≤ 255) (hy : y ≤ 255) :
    expandRange a b c x y
      = ((List.range' (min x y) (max x y - min x y + 1)).take 101).map
          (fun i => s!"{a}.{b}.{c}.{i}")
    ∧ (expandRange a b c x y).length
      = min (max x y - min x y + 1) 101 := by
  have hcond : ¬ (255 < x ∨ 255 < y) := by omega
  constructor
  · simp only [expandRange]
    rw [if_neg hcond, take_range'_eq, safeMax_count x y]
  · simp only [expandRange]
    rw [if_neg hcond, List.length_map, List.length_range', safeMax_count x y,
      Nat.min_comm]

theorem c7_expand_range_amended_witness :
    (5 ≤ 255 ∧ 2 ≤ 255)
    ∧ (expandRange 192 168 1 5 2
        = ((List.range' (min 5 2) (max 5 2 - min 5 2 + 1)).take 101).map
            (fun i => s!"{(192 : Nat)}.{(168 : Nat)}.{(1 : Nat)}.{i}")
      ∧ (expandRange 192 168 1 5 2).length
        = min (max 5 2 - min 5 2 + 1) 101) :=
  ⟨⟨by decide, by decide⟩, c7_expand_range_amended 192 168 1 5 2 (by decide) (by decide)⟩

theorem jsMin_spec : ∀ l : List ℚ, l ≠ [] →
    (∃ x ∈ l, jsMin l = (x : WithTop ℚ)) ∧ ∀ x ∈ l, jsMin l ≤ (x : WithTop ℚ) := by
  intro l
  induction l with
  | nil => intro h; exact absurd rfl h
  | cons a l ih =>
      intro _
      cases l with
      | nil =>
          have h1 : jsMin [a] = (a : WithTop ℚ) := by
            rw [jsMin, List.foldr_cons, List.foldr_nil]
            exact min_eq_left le_top
          refine ⟨⟨a, by simp, h1⟩, ?_⟩
          intro x hx
          rw [List.mem_singleton] at hx
          subst hx
          rw [h1]
      | cons b l' =>
          obtain ⟨⟨x, hx, hxe⟩, hb⟩ := ih (by simp)
          have hfold : jsMin (a :: b :: l') = min (a : WithTop ℚ) (jsMin (b :: l')) := rfl
          rcases le_total (a : WithTop ℚ) (jsMin (b :: l')) with hle | hle
          · refine ⟨⟨a, by simp, by rw [hfold, min_eq_left hle]⟩, ?_⟩
            intro z hz
            rcases List.mem_cons.mp hz with rfl | hz'
            · rw [hfold, min_eq_left hle]
            · rw [hfold, min_eq_left hle]
              exact le_trans hle (hb z hz')
          · refine ⟨⟨x, List.mem_cons_of_mem a hx, by rw [hfold, min_eq_right hle, hxe]⟩, ?_⟩
            intro z hz
            rcases List.mem_cons.mp hz with rfl | hz'
            · rw [hfold, min_eq_right hle]
              exact hle
            · rw [hfold, min_eq_right hle]
              exact hb z hz'

theorem jsMax_spec : ∀ l : List ℚ, l ≠ [] →
    (∃ x ∈ l, jsMax l = (x : WithBot ℚ)) ∧ ∀ x ∈ l, (x : WithBot ℚ) ≤ jsMax l := by
  intro l
  induction l with
  | nil => intro h; exact absurd rfl h
  | cons a l ih =>
      intro _
      cases l with
      | nil =>
          have h1 : jsMax [a] = (a : WithBot ℚ) := by
            rw [jsMax, List.foldr_cons, List.foldr_nil]
            exact max_eq_left bot_le
          refine ⟨⟨a, by simp, h1⟩, ?_⟩
          intro x hx
          rw [List.mem_singleton] at hx
          subst hx
          rw [h1]
      | cons b l' =>
          obtain ⟨⟨x, hx, hxe⟩, hb⟩ := ih (by simp)
          have hfold : jsMax (a :: b :: l') = max (a : WithBot ℚ) (jsMax (b :: l')) := rfl
          rcases le_total (a : WithBot ℚ) (jsMax (b :: l')) with hle | hle
          · refine ⟨⟨x, List.mem_cons_of_mem a hx, by rw [hfold, max_eq_right hle, hxe]⟩, ?_⟩
            intro z hz
            rcases List.mem_cons.mp hz with rfl | hz'
            · rw [hfold, max_eq_right hle]
              exact hle
            · rw [hfold, max_eq_right hle]
              exact hb z hz'
          · refine ⟨⟨a, by simp, by rw [hfold, max_eq_left hle]⟩, ?_⟩
            intro z hz
            rcases List.mem_cons.mp hz with rfl | hz'
            · rw [hfold, max_eq_left hle]
            · rw [hfold, max_eq_left hle]
              exact le_trans (hb z hz') hle

theorem foldl_add_rtt (l : List PingResult) : ∀ init : ℚ,
    l.foldl (fun s h => s + h.rtt) init = init + (l.map (fun h => h.rtt)).sum := by
  induction l with
  | nil => intro init; simp
  | cons a l ih =>
      intro init
      rw [List.foldl_cons, ih (init + a.rtt), List.map_cons, List.sum_cons]
      ring

theorem foldResult_minRtt (cap : Nat) (n : IPNode) (r : PingResult) :
    (foldResult cap n r).minRtt =
      if (aliveEntries (foldResult cap n r)).length ≠ 0 then
        jsMin ((aliveEntries (foldResult cap n r)).map fun h => h.rtt)
      else n.minRtt := rfl

theorem foldResult_maxRtt (cap : Nat) (n : IPNode) (r : PingResult) :
    (foldResult cap n r).maxRtt =
      if (aliveEntries (foldResult cap n r)).length ≠ 0 then
        jsMax ((aliveEntries (foldResult cap n r)).map fun h => h.rtt)
      else n.maxRtt := rfl

theorem foldResult_avgRtt (cap : Nat) (n : IPNode) (r : PingResult) :
    (foldResult cap n r).avgRtt =
      if (aliveEntries (foldResult cap n r)).length ≠ 0 then
        ((aliveEntries (foldResult cap n r)).foldl (fun s h => s + h.rtt) 0)
          / ((aliveEntries (foldResult cap n r)).length : ℚ)
      else 0 := rfl

/-- C1: the fold of `runMonitoringTick` recomputes min/max/avg strictly
over the history entries whose outcome is not `dead` (failed): when such
entries exist, `minRtt`/`maxRtt` are attained by some non-failed entry and
bound all of them, and `avgRtt` is their exact mean; when none exist,
`minRtt` and `maxRtt` keep their pre-fold values and `avgRtt` becomes 0. -/
theorem c1_stats_over_alive_history (cap : Nat) (n : IPNode) (r : PingResult) :
    (aliveEntries (foldResult cap n r) = [] →
        (foldResult cap n r).minRtt = n.minRtt
        ∧ (foldResult cap n r).maxRtt = n.maxRtt
        ∧ (foldResult cap n r).avgRtt = 0)
    ∧ (aliveEntries (foldResult cap n r) ≠ [] →
        (∃ h ∈ aliveEntries (foldResult cap n r),
            (foldResult cap n r).minRtt = (h.rtt : WithTop ℚ))
        ∧ (∀ h ∈ aliveEntries (foldResult cap n r),
            (foldResult cap n r).minRtt ≤ (h.rtt : WithTop ℚ))
        ∧ (∃ h ∈ aliveEntries (foldResult cap n r),
            (foldResult cap n r).maxRtt = (h.rtt : WithBot ℚ))
        ∧ (∀ h ∈ aliveEntries (foldResult cap n r),
            (h.rtt : WithBot ℚ) ≤ (foldResult cap n r).maxRtt)
        ∧ (foldResult cap n r).avgRtt
            = ((aliveEntries (foldResult cap n r)).map (fun h => h.rtt)).sum
              / ((aliveEntries (foldResult cap n r)).length : ℚ)) := by
  by_cases hA : aliveEntries (foldResult cap n r) = []
  · refine ⟨fun _ => ?_, fun hne => absurd hA hne⟩
    rw [foldResult_minRtt, foldResult_maxRtt, foldResult_avgRtt, hA]
    simp
  · refine ⟨fun h => absurd h hA, fun _ => ?_⟩
    have hlen : (aliveEntries (foldResult cap n r)).length ≠ 0 := by
      simpa [List.length_eq_zero] using hA
    have hmapne : ((aliveEntries (foldResult cap n r)).map fun h => h.rtt) ≠ [] := by
      simp [hA]
    obtain ⟨⟨mn, hmn, hmne⟩, hmnb⟩ := jsMin_spec _ hmapne
    obtain ⟨⟨mx, hmx, hmxe⟩, hmxb⟩ := jsMax_spec _ hmapne
    obtain ⟨hn, hhn, rfl⟩ := List.mem_map.mp hmn
    obtain ⟨hx, hhx, rfl⟩ := List.mem_map.mp hmx
    refine ⟨⟨hn, hhn, by rw [foldResult_minRtt, if_pos hlen, hmne]⟩, ?_,
      ⟨hx, hhx, by rw [foldResult_maxRtt, if_pos hlen, hmxe]⟩, ?_, ?_⟩
    · intro h hh
      rw [foldResult_minRtt, if_pos hlen]
      exact hmnb h.rtt (List.mem_map_of_mem _ hh)
    · intro h hh
      rw [foldResult_maxRtt, if_pos hlen]
      exact hmxb h.rtt (List.mem_map_of_mem _ hh)
    · rw [foldResult_avgRtt, if_pos hlen, foldl_add_rtt, zero_add]

theorem c1_stats_over_alive_history_witness :
    (aliveEntries (foldResult 5 (mkFreshNode "n1" "8.8.8.8")
        { timestamp := 1, rtt := 0, status := ConnectionStatus.dead }) = []
      ∧ ((foldResult 5 (mkFreshNode "n1" "8.8.8.8")
            { timestamp := 1, rtt := 0, status := ConnectionStatus.dead }).minRtt
          = (mkFreshNode "n1" "8.8.8.8").minRtt
        ∧ (foldResult 5 (mkFreshNode "n1" "8.8.8.8")
            { timestamp := 1, rtt := 0, status := ConnectionStatus.dead }).maxRtt
          = (mkFreshNode "n1" "8.8.8.8").maxRtt
        ∧ (foldResult 5 (mkFreshNode "n1" "8.8.8.8")
            { timestamp := 1, rtt := 0, status := ConnectionStatus.dead }).avgRtt = 0))
    ∧ (aliveEntries (foldResult 5 (mkFreshNode "n2" "1.1.1.1")
        { timestamp := 2, rtt := 50, status := ConnectionStatus.alive }) ≠ []
      ∧ (∃ h ∈ aliveEntries (foldResult 5 (mkFreshNode "n2" "1.1.1.1")
            { timestamp := 2, rtt := 50, status := ConnectionStatus.alive }),
          (foldResult 5 (mkFreshNode "n2" "1.1.1.1")
            { timestamp := 2, rtt := 50, status := ConnectionStatus.alive }).minRtt
            = (h.rtt : WithTop ℚ))) :=
  ⟨⟨by decide,
    (c1_stats_over_alive_history 5 (mkFreshNode "n1" "8.8.8.8")
      { timestamp := 1, rtt := 0, status := ConnectionStatus.dead }).1 (by decide)⟩,
   ⟨by decide,
    ((c1_stats_over_alive_history 5 (mkFreshNode "n2" "1.1.1.1")
      { timestamp := 2, rtt := 50, status := ConnectionStatus.alive }).2 (by decide)).1⟩⟩

/-- Well-formedness of a downtime log: every incident except possibly the
final one carries an end time. -/
def OpenOnlyAtEnd (log : List DowntimeEvent) : Prop :=
  ∀ e ∈ log.dropLast, e.endTime ≠ none

theorem jsNoEndTime_false_ne_none {o : Option Nat} (h : jsNoEndTime o = false) :
    o ≠ none := by
  cases o with
  | none => simp [jsNoEndTime] at h
  | some t => simp

theorem updateNodeData_log_step (cap : Nat) (evId : String) (n : IPNode)
    (r : PingResult) (h : OpenOnlyAtEnd n.downtimeEvents) :
    OpenOnlyAtEnd (updateNodeData cap evId n r).downtimeEvents := by
  rcases List.eq_nil_or_concat n.downtimeEvents with hnil | ⟨l', e, hcat⟩
  · by_cases hd : r.status = ConnectionStatus.dead <;>
      simp [updateNodeData, OpenOnlyAtEnd, hnil, hd]
  · rw [List.concat_eq_append] at hcat
    have hl' : ∀ x ∈ l', x.endTime ≠ none := by
      intro x hx
      exact h x (by rw [hcat, List.dropLast_concat]; exact hx)
    by_cases hd : r.status = ConnectionStatus.dead
    · by_cases hopen : jsNoEndTime e.endTime = true
      · have hlog : (updateNodeData cap evId n r).downtimeEvents
            = l' ++ [{ e with lostCount := e.lostCount + 1 }] := by
          simp [updateNodeData, hcat, hd, hopen, List.getLast?_concat]
        rw [hlog]
        intro x hx
        rw [List.dropLast_concat] at hx
        exact hl' x hx
      · have hlog : (updateNodeData cap evId n r).downtimeEvents
            = (l' ++ [e]) ++
              [{ id := evId, startTime := r.timestamp, endTime := none,
                 lostCount := 1 }] := by
          simp [updateNodeData, hcat, hd, hopen, List.getLast?_concat]
        rw [hlog]
        intro x hx
        rw [List.dropLast_concat] at hx
        rcases List.mem_append.mp hx with hx' | hx'
        · exact hl' x hx'
        · rw [List.mem_singleton] at hx'
          subst hx'
          exact jsNoEndTime_false_ne_none (by simpa using hopen)
    · by_cases hopen : jsNoEndTime e.endTime = true
      · have hlog : (updateNodeData cap evId n r).downtimeEvents
            = l' ++ [{ e with endTime := some r.timestamp }] := by
          simp [updateNodeData, hcat, hd, hopen, List.getLast?_concat]
        rw [hlog]
        intro x hx
        rw [List.dropLast_concat] at hx
        exact hl' x hx
      · have hlog : (updateNodeData cap evId n r).downtimeEvents = l' ++ [e] := by
          simp [updateNodeData, hcat, hd, hopen, List.getLast?_concat]
        rw [hlog]
        intro x hx
        rw [List.dropLast_concat] at hx
        exact hl' x hx

theorem openCount_le_one (log : List DowntimeEvent) (h : OpenOnlyAtEnd log) :
    openCount log ≤ 1 := by
  rcases List.eq_nil_or_concat log with rfl | ⟨l', e, hcat⟩
  · simp [openCount]
  · rw [List.concat_eq_append] at hcat
    subst hcat
    rw [openCount, List.countP_append]
    have h0 : l'.countP (fun e => e.endTime.isNone) = 0 := by
      rw [List.countP_eq_zero]
      intro a ha
      have hne := h a (by rw [List.dropLast_concat]; exact ha)
      simp [Option.isNone_iff_eq_none, hne]
    have h1 : [e].countP (fun e => e.endTime.isNone) ≤ 1 := by
      calc [e].countP (fun e => e.endTime.isNone) ≤ [e].length := List.countP_le_length _
        _ = 1 := rfl
    omega

theorem foldl_updateNodeData_log (cap : Nat) (evId : String) (rs : List PingResult) :
    ∀ n : IPNode, OpenOnlyAtEnd n.downtimeEvents →
      OpenOnlyAtEnd (rs.foldl (updateNodeData cap evId) n).downtimeEvents := by
  induction rs with
  | nil => intro n h; exact h
  | cons r rs ih =>
      intro n h
      exact ih (updateNodeData cap evId n r) (updateNodeData_log_step cap evId n r h)

/-- C2: starting from a fresh target, after any sequence of folds the
downtime log holds at most one open (no end time) incident; a failed
result arriving while the last incident is open increments that incident's
lost-count and appends nothing; and a non-failed result closes exactly the
most recent open incident by setting its end time, creating none. -/
theorem c2_downtime_incident_machine (cap : Nat) (evId nodeId ipAddr : String)
    (rs : List PingResult) (n : IPNode) (r : PingResult)
    (log : List DowntimeEvent) (e : DowntimeEvent) :
    openCount ((rs.foldl (updateNodeData cap evId)
        (mkFreshNode3 nodeId ipAddr)).downtimeEvents) ≤ 1
    ∧ (r.status = ConnectionStatus.dead → n.downtimeEvents = log ++ [e] →
        e.endTime = none →
        (updateNodeData cap evId n r).downtimeEvents
          = log ++ [{ e with lostCount := e.lostCount + 1 }])
    ∧ (r.status ≠ ConnectionStatus.dead → n.downtimeEvents = log ++ [e] →
        e.endTime = none →
        (updateNodeData cap evId n r).downtimeEvents
          = log ++ [{ e with endTime := some r.timestamp }]) := by
  refine ⟨?_, ?_, ?_⟩
  · apply openCount_le_one
    apply foldl_updateNodeData_log
    intro x hx
    simp [mkFreshNode3, mkFreshNode] at hx
  · intro hd hlog hopen
    simp [updateNodeData, hlog, hd, hopen, jsNoEndTime, List.getLast?_concat,
      List.dropLast_concat]
  · intro hd hlog hopen
    simp [updateNodeData, hlog, hd, hopen, jsNoEndTime, List.getLast?_concat,
      List.dropLast_concat]

theorem c2_downtime_incident_machine_witness :
    ({ id := "n1", label := "8.8.8.8", ip := "8.8.8.8", hostname := "Network Target",
        customName := none, isResolving := false, history := [],
        downtimeEvents := [{ id := "d1", startTime := 5, endTime := none, lostCount := 1 }],
        minRtt := ⊤, maxRtt := (0 : ℚ), avgRtt := 0, curRtt := 0,
        sent := 1, received := 0, lost := 1, packetLoss := 100,
        isMonitoring := true, isGraphed := false, hops := none,
        isTracing := none } : IPNode).downtimeEvents
      = [] ++ [{ id := "d1", startTime := 5, endTime := none, lostCount := 1 }]
    ∧ (updateNodeData 5 "e2"
        { id := "n1", label := "8.8.8.8", ip := "8.8.8.8", hostname := "Network Target",
          customName := none, isResolving := false, history := [],
          downtimeEvents := [{ id := "d1", startTime := 5, endTime := none, lostCount := 1 }],
          minRtt := ⊤, maxRtt := (0 : ℚ), avgRtt := 0, curRtt := 0,
          sent := 1, received := 0, lost := 1, packetLoss := 100,
          isMonitoring := true, isGraphed := false, hops := none, isTracing := none }
        { timestamp := 7, rtt := 0, status := ConnectionStatus.dead }).downtimeEvents
      = [] ++ [{ id := "d1", startTime := 5, endTime := none, lostCount := 1 + 1 }]
    ∧ (updateNodeData 5 "e2"
        { id := "n1", label := "8.8.8.8", ip := "8.8.8.8", hostname := "Network Target",
          customName := none, isResolving := false, history := [],
          downtimeEvents := [{ id := "d1", startTime := 5, endTime := none, lostCount := 1 }],
          minRtt := ⊤, maxRtt := (0 : ℚ), avgRtt := 0, curRtt := 0,
          sent := 1, received := 0, lost := 1, packetLoss := 100,
          isMonitoring := true, isGraphed := false, hops := none, isTracing := none }
        { timestamp := 9, rtt := 20, status := ConnectionStatus.alive }).downtimeEvents
      = [] ++ [{ id := "d1", startTime := 5, endTime := some 9, lostCount := 1 }] := by
  refine ⟨rfl, ?_, ?_⟩
  · exact (c2_downtime_incident_machine 5 "e2" "x" "y" [] _
      { timestamp := 7, rtt := 0, status := ConnectionStatus.dead } []
      { id := "d1", startTime := 5, endTime := none, lostCount := 1 }).2.1
      rfl rfl rfl
  · exact (c2_downtime_incident_machine 5 "e2" "x" "y" [] _
      { timestamp := 9, rtt := 20, status := ConnectionStatus.alive } []
      { id := "d1", startTime := 5, endTime := none, lostCount := 1 }).2.2
      (by decide) rfl rfl

end NetPulse
